import Mathlib

/-!
Shallow embedding of `decodeless::linear_memory_resource` and its companions
from `include/decodeless/allocator.hpp` and `include/decodeless/pmr_allocator.hpp`.

Modelling conventions:
* `uintptr_t` / `size_t` values are modelled as `Nat`.  The allocator's pointer
  arithmetic never relies on wrap-around in the scenarios covered here, with one
  exception: the alignment mask `(-static_cast<ptrdiff_t>(m_next)) & (align - 1)`
  does depend on two's-complement negation, so it is modelled exactly, as a
  64-bit two's-complement negation followed by a bitwise and (`alignPad`).
* The backing `ParentAllocator` (the template parameter) is modelled by its
  observable state and capabilities: its currently reserved size, whether it
  satisfies `realloc_resource_or_allocator` (the `growable` flag — a
  compile-time capability in C++), whether it satisfies `has_max_size`, the
  value of `max_size()`, and an oracle `reallocAddr` giving, for each requested
  new size, the address `reallocate` returns (`none` models `reallocate`
  throwing; in that case the parent's reservation is unchanged).  When
  `reallocate` returns normally the parent's reserved size becomes the
  requested size.
* C++ exceptions are modelled with `Except`.  The code only ever throws
  `std::bad_alloc`, so the error type has that single constructor.
* `allocate` returns the outcome *and* the post-state, because the C++ method
  can mutate the parent allocator before throwing.
-/

namespace Decodeless

/-- Width of `uintptr_t` / `size_t` (the code targets 64-bit platforms). -/
def WORD : Nat := 2 ^ 64

/-- The only exception type thrown by `linear_memory_resource`:
`std::bad_alloc`. -/
inductive CppError where
  | badAlloc
deriving DecidableEq, Repr

/-- Model of the `ParentAllocator` template argument: its reserved size plus
the static capabilities `realloc_resource_or_allocator` (`growable`) and
`has_max_size` (`hasMax`, with `max_size()` returning `maxSize`), and an
oracle describing what address `reallocate` returns for each requested size
(`none` = `reallocate` throws, leaving the parent unchanged). -/
structure ParentAllocator where
  reserved : Nat
  growable : Bool
  hasMax : Bool
  maxSize : Nat
  reallocAddr : Nat → Option Nat

/-- State of `linear_memory_resource<ParentAllocator>`: the parent allocator
and the fields `m_begin`, `m_next`, `m_end` (addresses as `Nat`). -/
structure LinearMemoryResource where
  parent : ParentAllocator
  m_begin : Nat
  m_next : Nat
  m_end : Nat

namespace LinearMemoryResource

/-- Method `size()` — `m_next - reinterpret_cast<uintptr_t>(m_begin)`. -/
def size (r : LinearMemoryResource) : Nat := r.m_next - r.m_begin

/-- Method `capacity()` — `m_end - reinterpret_cast<uintptr_t>(m_begin)`. -/
def capacity (r : LinearMemoryResource) : Nat := r.m_end - r.m_begin

/-- Method `data()` — returns `m_begin`. -/
def data (r : LinearMemoryResource) : Nat := r.m_begin

end LinearMemoryResource

/-- The padding term `(-static_cast<ptrdiff_t>(m_next)) & (align - 1)` from
`allocate`: 64-bit two's-complement negation of `next`, masked with
`align - 1` (the subtraction wrapping in `size_t`). -/
def alignPad (next align : Nat) : Nat :=
  ((WORD - next % WORD) % WORD) &&& ((align + (WORD - 1)) % WORD)

/-- The grown reservation size computed inside `allocate` on overflow:
`newSize = max(size(), 2 * capacity())`, then clamped to `max_size()` when
`has_max_size` holds, `newSize > max_size()` and `size() < max_size()`.
Note the C++ evaluates `size()` *before* `m_next` is updated. -/
def growTarget (r : LinearMemoryResource) : Nat :=
  let g := max r.size (2 * r.capacity)
  if r.parent.hasMax = true ∧ g > r.parent.maxSize ∧ r.size < r.parent.maxSize then
    r.parent.maxSize
  else g

namespace LinearMemoryResource

/-- Method `allocate(bytes, align)` of `linear_memory_resource` (allocator.hpp):
align the cursor, compute the prospective cursor, on overflow either
reallocate the parent (when the parent is realloc-capable) — failing with
`std::bad_alloc` when `reallocate` throws or returns a different base
address — or throw `std::bad_alloc` outright; commit `m_next` only when no
exception was thrown.  Returns the outcome together with the post-state
(the parent's reservation may have changed even when an exception is
thrown after a relocating `reallocate`). -/
def allocate (r : LinearMemoryResource) (bytes align : Nat) :
    Except CppError Nat × LinearMemoryResource :=
  let result := r.m_next + alignPad r.m_next align
  let newNext := result + bytes
  if newNext > r.m_end then
    if r.parent.growable = true then
      let newSize := growTarget r
      match r.parent.reallocAddr newSize with
      | none => (.error .badAlloc, r)
      | some addr =>
        let r1 : LinearMemoryResource :=
          { r with parent := { r.parent with reserved := newSize } }
        if addr ≠ r.m_begin then
          (.error .badAlloc, r1)
        else
          (.ok result, { r1 with m_end := r.m_begin + newSize, m_next := newNext })
    else
      (.error .badAlloc, r)
  else
    (.ok result, { r with m_next := newNext })

/-- Method `deallocate(p, bytes)` — a no-op. -/
def deallocate (r : LinearMemoryResource) (p bytes : Nat) : LinearMemoryResource :=
  r

/-- Method `reset()` — `m_next = reinterpret_cast<uintptr_t>(m_begin)`. -/
def reset (r : LinearMemoryResource) : LinearMemoryResource :=
  { r with m_next := r.m_begin }

/-- Method `truncate()` — only available (`requires realloc_resource_or_allocator`)
when the parent is realloc-capable, modelled by returning `none` otherwise:
reallocate the parent to `size()`, throw `std::bad_alloc` if the address
changed, else set `m_end = m_next`. -/
def truncate (r : LinearMemoryResource) :
    Option (Except CppError Unit × LinearMemoryResource) :=
  if r.parent.growable = true then
    some (match r.parent.reallocAddr r.size with
      | none => (.error .badAlloc, r)
      | some addr =>
        let r1 : LinearMemoryResource :=
          { r with parent := { r.parent with reserved := r.size } }
        if addr ≠ r.m_begin then
          (.error .badAlloc, r1)
        else
          (.ok (), { r1 with m_end := r.m_next }))
  else
    none

end LinearMemoryResource

/-- Run a list of `(bytes, align)` requests through `allocate`, collecting the
returned addresses; `none` as soon as any call throws. -/
def runAllocs (r : LinearMemoryResource) :
    List (Nat × Nat) → Option (List Nat × LinearMemoryResource)
  | [] => some ([], r)
  | (bytes, align) :: rest =>
    match r.allocate bytes align with
    | (.ok addr, r1) =>
      (runAllocs r1 rest).map (fun p => (addr :: p.1, p.2))
    | (.error _, _) => none

/-- Model of `memory_resource_ref<T, MemoryResource>`: it stores one pointer
`m_resource` to the referenced resource object; the pointer value (the
identity of the arena instance) is modelled as a `Nat`.  `T` is the element
type parameter, which does not influence the stored pointer. -/
structure MemoryResourceRef (T : Type) where
  m_resource : Nat

namespace MemoryResourceRef

/-- Operator `==` — compares the stored resource pointers. -/
def beq {T : Type} (x y : MemoryResourceRef T) : Bool :=
  x.m_resource == y.m_resource

/-- Operator `!=` — compares the stored resource pointers. -/
def bne {T : Type} (x y : MemoryResourceRef T) : Bool :=
  x.m_resource != y.m_resource

/-- The compiler-generated copy constructor: copies the pointer, touching no
arena. -/
def copy {T : Type} (x : MemoryResourceRef T) : MemoryResourceRef T :=
  { m_resource := x.m_resource }

/-- The converting constructor
`memory_resource_ref(const memory_resource_ref<U, MemoryResource>&)` (also
used through `rebind`): takes the other view's resource pointer. -/
def ofOther {T U : Type} (other : MemoryResourceRef U) : MemoryResourceRef T :=
  { m_resource := other.m_resource }

end MemoryResourceRef

/-- Model of `pmr_linear_memory_resource<ParentAllocator>` /
`memory_resource_adapter<linear_memory_resource<ParentAllocator>>` from
pmr_allocator.hpp: it holds the wrapped resource as its member
`m_resource`. -/
structure PmrLinearMemoryResource where
  m_resource : LinearMemoryResource

namespace PmrLinearMemoryResource

/-- Method `do_allocate(bytes, align)` — `return m_resource.allocate(bytes, align);`. -/
def do_allocate (p : PmrLinearMemoryResource) (bytes align : Nat) :
    Except CppError Nat × PmrLinearMemoryResource :=
  let q := p.m_resource.allocate bytes align
  (q.1, { m_resource := q.2 })

/-- Method `do_deallocate(p, bytes, align)` — `m_resource.deallocate(p, bytes);`
(the alignment argument is unused). -/
def do_deallocate (p : PmrLinearMemoryResource) (ptr bytes align : Nat) :
    PmrLinearMemoryResource :=
  { m_resource := p.m_resource.deallocate ptr bytes }

/-- Method `reset()` — `this->backing_resource().reset();`. -/
def reset (p : PmrLinearMemoryResource) : PmrLinearMemoryResource :=
  { m_resource := p.m_resource.reset }

/-- Method `truncate()` — `this->backing_resource().truncate();`. -/
def truncate (p : PmrLinearMemoryResource) :
    Option (Except CppError Unit × PmrLinearMemoryResource) :=
  (p.m_resource.truncate).map (fun q => (q.1, { m_resource := q.2 }))

/-- Method `data()` — delegates to the backing resource. -/
def data (p : PmrLinearMemoryResource) : Nat := p.m_resource.data

/-- Method `size()` — delegates to the backing resource. -/
def size (p : PmrLinearMemoryResource) : Nat := p.m_resource.size

/-- Method `capacity()` — delegates to the backing resource. -/
def capacity (p : PmrLinearMemoryResource) : Nat := p.m_resource.capacity

end PmrLinearMemoryResource

/-- One operation of the arena's public surface, used to compare the pmr
adapter with the wrapped resource over arbitrary operation sequences. -/
inductive ArenaOp where
  | alloc (bytes align : Nat)
  | dealloc (ptr bytes : Nat)
  | reset
  | truncate
  | size
  | capacity
  | data

/-- Observable outcome of one operation: the address or exception of an
`allocate`, nothing for `deallocate`/`reset`, the outcome of a `truncate`
(`none` when the operation is unavailable), or a queried number. -/
inductive Obs where
  | addr (x : Except CppError Nat)
  | unit
  | trunc (x : Option (Except CppError Unit))
  | num (n : Nat)

/-- Interpret one operation directly on `linear_memory_resource`. -/
def stepLinear (r : LinearMemoryResource) : ArenaOp → Obs × LinearMemoryResource
  | .alloc b a => ((Obs.addr (r.allocate b a).1), (r.allocate b a).2)
  | .dealloc p b => (.unit, r.deallocate p b)
  | .reset => (.unit, r.reset)
  | .truncate =>
    match r.truncate with
    | none => (.trunc none, r)
    | some (o, r1) => (.trunc (some o), r1)
  | .size => (.num r.size, r)
  | .capacity => (.num r.capacity, r)
  | .data => (.num r.data, r)

/-- Interpret one operation through `pmr_linear_memory_resource`. -/
def stepPmr (p : PmrLinearMemoryResource) : ArenaOp → Obs × PmrLinearMemoryResource
  | .alloc b a => ((Obs.addr (p.do_allocate b a).1), (p.do_allocate b a).2)
  | .dealloc q b => (.unit, p.do_deallocate q b 1)
  | .reset => (.unit, p.reset)
  | .truncate =>
    match p.truncate with
    | none => (.trunc none, p)
    | some (o, p1) => (.trunc (some o), p1)
  | .size => (.num p.size, p)
  | .capacity => (.num p.capacity, p)
  | .data => (.num p.data, p)

/-- Run a sequence of operations on the wrapped resource. -/
def runLinear (r : LinearMemoryResource) : List ArenaOp → List Obs × LinearMemoryResource
  | [] => ([], r)
  | op :: rest =>
    ((stepLinear r op).1 :: (runLinear (stepLinear r op).2 rest).1,
      (runLinear (stepLinear r op).2 rest).2)

/-- Run a sequence of operations through the pmr adapter. -/
def runPmr (p : PmrLinearMemoryResource) : List ArenaOp → List Obs × PmrLinearMemoryResource
  | [] => ([], p)
  | op :: rest =>
    ((stepPmr p op).1 :: (runPmr (stepPmr p op).2 rest).1,
      (runPmr (stepPmr p op).2 rest).2)

/-- A `NullAllocator`-style fixed parent (test allocator.cpp): no `reallocate`,
no `max_size`; `n` bytes reserved by the constructor. -/
def nullParent (n : Nat) : ParentAllocator :=
  { reserved := n, growable := false, hasMax := false, maxSize := 0,
    reallocAddr := fun _ => none }

/-- Oracle of a well-behaved growable parent allocated at base 0 whose
`reallocate` always succeeds in place (like `ReallocNullAllocator` in the
tests, whose allocations sit at `nullptr`). -/
def inPlaceOracle : Nat → Option Nat := fun _ => some 0

/-- Oracle of a growable parent whose `reallocate` succeeds but moves the
block: it returns base address 1 instead of 0. -/
def relocOracle : Nat → Option Nat := fun _ => some 1

/-- A `ReallocNullAllocator`-style growable parent at base 0 with `n` bytes
reserved, reallocating in place. -/
def growParent (n : Nat) : ParentAllocator :=
  { reserved := n, growable := true, hasMax := false, maxSize := 0,
    reallocAddr := inPlaceOracle }

/-- A growable parent at base 0 with `n` bytes reserved whose `reallocate`
relocates the block to base 1. -/
def relocParent (n : Nat) : ParentAllocator :=
  { reserved := n, growable := true, hasMax := false, maxSize := 0,
    reallocAddr := relocOracle }

/-- An arena as produced by the `linear_memory_resource` constructor over a
parent whose initial allocation is at address 0: `m_begin = 0`,
`m_next = m_begin`, `m_end = m_begin + initialSize`. -/
def freshArena (p : ParentAllocator) (initialSize : Nat) : LinearMemoryResource :=
  { parent := p, m_begin := 0, m_next := 0, m_end := initialSize }

/-! ### Arithmetic facts about the alignment padding -/

lemma word_eq : WORD = 18446744073709551616 := by norm_num [WORD]

lemma alignPad_mask (j : Nat) (hj : j ≤ 64) :
    (2 ^ j + (WORD - 1)) % WORD = 2 ^ j - 1 := by
  have h1 : 1 ≤ 2 ^ j := Nat.one_le_two_pow
  have h2 : (2 : Nat) ^ j ≤ 2 ^ 64 := Nat.pow_le_pow_right (by norm_num) hj
  have hW : WORD = 2 ^ 64 := rfl
  rw [show 2 ^ j + (WORD - 1) = WORD + (2 ^ j - 1) by rw [hW]; omega]
  rw [Nat.add_mod_left]
  exact Nat.mod_eq_of_lt (by rw [hW]; omega)

lemma sub_mod_of_dvd (A Wv n1 : Nat) (hA : 0 < A) (hd : A ∣ Wv) (h1 : n1 ≤ Wv) :
    (Wv - n1) % A = (A - n1 % A) % A := by
  by_cases hc : n1 % A = 0
  · have hdv : A ∣ n1 := Nat.dvd_of_mod_eq_zero hc
    have hsub : A ∣ (Wv - n1) := Nat.dvd_sub' hd hdv
    rw [hc, Nat.sub_zero, Nat.mod_self]
    exact Nat.mod_eq_zero_of_dvd hsub
  · have hclt : n1 % A < A := Nat.mod_lt _ hA
    have hx : (Wv - n1) % A < A := Nat.mod_lt _ hA
    have hkey : ((Wv - n1) % A + n1 % A) % A = 0 := by
      rw [← Nat.add_mod, Nat.sub_add_cancel h1]
      exact (Nat.mod_eq_zero_of_dvd hd)
    have hdvd : A ∣ ((Wv - n1) % A + n1 % A) := Nat.dvd_of_mod_eq_zero hkey
    obtain ⟨k, hk⟩ := hdvd
    have hk2 : k < 2 := by
      have : A * k < A * 2 := by omega
      exact Nat.lt_of_mul_lt_mul_left this
    interval_cases k
    · omega
    · rw [Nat.mod_eq_of_lt (by omega : A - n1 % A < A)]
      omega

lemma alignPad_pow2 (next j : Nat) (hj : j ≤ 64) :
    alignPad next (2 ^ j) = (2 ^ j - next % 2 ^ j) % 2 ^ j := by
  have hA : 0 < 2 ^ j := Nat.pos_pow_of_pos j (by norm_num)
  have hdvd : (2 : Nat) ^ j ∣ WORD := by
    rw [show WORD = 2 ^ 64 from rfl]
    exact pow_dvd_pow 2 hj
  rw [alignPad, alignPad_mask j hj, Nat.and_pow_two_sub_one_eq_mod,
    Nat.mod_mod_of_dvd _ hdvd]
  rw [sub_mod_of_dvd (2 ^ j) WORD (next % WORD) hA hdvd
    (Nat.le_of_lt (Nat.mod_lt _ (by rw [word_eq]; omega)))]
  rw [Nat.mod_mod_of_dvd _ hdvd]

lemma alignPad_lt (next j : Nat) (hj : j ≤ 64) : alignPad next (2 ^ j) < 2 ^ j := by
  rw [alignPad_pow2 next j hj]
  exact Nat.mod_lt _ (Nat.pos_pow_of_pos j (by norm_num))

lemma alignPad_aligned (next j : Nat) (hj : j ≤ 64) :
    (next + alignPad next (2 ^ j)) % 2 ^ j = 0 := by
  rw [alignPad_pow2 next j hj]
  have hA : 0 < 2 ^ j := Nat.pos_pow_of_pos j (by norm_num)
  by_cases hc : next % 2 ^ j = 0
  · rw [hc, Nat.sub_zero, Nat.mod_self, Nat.add_zero, hc]
  · have hclt : next % 2 ^ j < 2 ^ j := Nat.mod_lt _ hA
    rw [Nat.mod_eq_of_lt (by omega : 2 ^ j - next % 2 ^ j < 2 ^ j)]
    have hd : 2 ^ j * (next / 2 ^ j) + next % 2 ^ j = next := Nat.div_add_mod next (2 ^ j)
    have hq : 2 ^ j * (next / 2 ^ j + 1) = 2 ^ j * (next / 2 ^ j) + 2 ^ j := by ring
    have heq : next + (2 ^ j - next % 2 ^ j) = 2 ^ j * (next / 2 ^ j + 1) := by
      rw [hq]; omega
    rw [heq, Nat.mul_mod_right]

lemma alignPad_one (next : Nat) : alignPad next 1 = 0 := by
  have h := alignPad_pow2 next 0 (by omega)
  rw [pow_zero, Nat.mod_one] at h
  exact h

/-! ### Structure of a successful `allocate` -/

lemma allocate_ok_dissect (r : LinearMemoryResource) (b a addr : Nat)
    (r1 : LinearMemoryResource) (h : r.allocate b a = (.ok addr, r1)) :
    addr = r.m_next + alignPad r.m_next a ∧ r1.m_next = addr + b ∧
      r1.m_begin = r.m_begin := by
  simp only [LinearMemoryResource.allocate] at h
  split at h
  · split at h
    · split at h
      · exact absurd h (by simp)
      · split at h
        · exact absurd h (by simp)
        · injection h with hfst hsnd
          injection hfst with haddr
          subst haddr
          refine ⟨rfl, ?_, ?_⟩ <;> rw [← hsnd]
    · exact absurd h (by simp)
  · injection h with hfst hsnd
    injection hfst with haddr
    subst haddr
    refine ⟨rfl, ?_, ?_⟩ <;> rw [← hsnd]

/-! ### Facts about `runAllocs` -/

lemma runAllocs_head (r : LinearMemoryResource) (b a : Nat) (rest : List (Nat × Nat))
    (as : List Nat) (rf : LinearMemoryResource)
    (h : runAllocs r ((b, a) :: rest) = some (as, rf)) :
    ∃ r1 as1, r.allocate b a = (.ok (r.m_next + alignPad r.m_next a), r1) ∧
      runAllocs r1 rest = some (as1, rf) ∧
      as = (r.m_next + alignPad r.m_next a) :: as1 ∧
      r1.m_next = r.m_next + alignPad r.m_next a + b ∧
      r1.m_begin = r.m_begin := by
  simp only [runAllocs] at h
  split at h
  case h_1 addr r1 heq =>
    obtain ⟨ha, hn, hb⟩ := allocate_ok_dissect r b a addr r1 heq
    subst ha
    simp only [Option.map_eq_some'] at h
    obtain ⟨⟨as1, rf1⟩, hrun, hpair⟩ := h
    dsimp only at hpair
    injection hpair with h1 h2
    subst h1
    subst h2
    exact ⟨r1, as1, heq, hrun, rfl, hn, hb⟩
  case h_2 => exact absurd h (by simp)

lemma runAllocs_adj (rs : List (Nat × Nat)) :
    ∀ (r : LinearMemoryResource) (as : List Nat) (rf : LinearMemoryResource),
      runAllocs r rs = some (as, rf) →
      ∀ i (h1 : i + 1 < as.length) (h2 : i + 1 < rs.length),
        as.get ⟨i + 1, h1⟩ =
          (as.get ⟨i, Nat.lt_of_succ_lt h1⟩ + (rs.get ⟨i, Nat.lt_of_succ_lt h2⟩).1) +
            alignPad
              (as.get ⟨i, Nat.lt_of_succ_lt h1⟩ + (rs.get ⟨i, Nat.lt_of_succ_lt h2⟩).1)
              (rs.get ⟨i + 1, h2⟩).2 := by
  induction rs with
  | nil =>
    intro r as rf h i h1 h2
    simp at h2
  | cons hd rest IH =>
    intro r as rf h i h1 h2
    obtain ⟨b, a⟩ := hd
    obtain ⟨r1, as1, halloc, hrun, has, hn, hb⟩ := runAllocs_head r b a rest as rf h
    subst has
    match i with
    | 0 =>
      match rest, h2 with
      | (b2, a2) :: rest2, h2 =>
        obtain ⟨r2, as2, halloc2, hrun2, has2, hn2, hb2⟩ :=
          runAllocs_head r1 b2 a2 rest2 as1 rf hrun
        subst has2
        show r1.m_next + alignPad r1.m_next a2 =
          (r.m_next + alignPad r.m_next a + b) +
            alignPad (r.m_next + alignPad r.m_next a + b) a2
        rw [hn]
    | j + 1 =>
      exact IH r1 as1 rf hrun j (Nat.lt_of_succ_lt_succ h1) (Nat.lt_of_succ_lt_succ h2)

/-- The final arena state of concrete scenario A from the spec (§8) and the
test `Allocate.Object`: fixed parent, capacity 23, after the four
allocations `(1,1) (4,4) (8,8) (1,1)`. -/
def scenAfinal : LinearMemoryResource :=
  { parent := nullParent 23, m_begin := 0, m_next := 17, m_end := 23 }

/-- C1: for every sequence of `allocate(size_i, align_i)` calls, each
alignment a power of two, in which every call succeeds (in particular any
sequence staying within the initial capacity): the returned addresses are
non-decreasing, `address_i + size_i ≤ address_{i+1}`, each address is a
multiple of its requested alignment, and the padding gap
`address_{i+1} - (address_i + size_i)` is strictly less than
`align_{i+1}`. -/
theorem c1_sequence_alignment_padding
    (r : LinearMemoryResource) (rs : List (Nat × Nat)) (as : List Nat)
    (rf : LinearMemoryResource)
    (hrun : runAllocs r rs = some (as, rf))
    (halign : ∀ p ∈ rs, ∃ j, j ≤ 64 ∧ p.2 = 2 ^ j)
    (i : Nat) (h1 : i + 1 < as.length) (h2 : i + 1 < rs.length) :
    as.get ⟨i, Nat.lt_of_succ_lt h1⟩ ≤ as.get ⟨i + 1, h1⟩ ∧
    as.get ⟨i, Nat.lt_of_succ_lt h1⟩ + (rs.get ⟨i, Nat.lt_of_succ_lt h2⟩).1 ≤
      as.get ⟨i + 1, h1⟩ ∧
    as.get ⟨i + 1, h1⟩ % (rs.get ⟨i + 1, h2⟩).2 = 0 ∧
    as.get ⟨i + 1, h1⟩ -
        (as.get ⟨i, Nat.lt_of_succ_lt h1⟩ + (rs.get ⟨i, Nat.lt_of_succ_lt h2⟩).1) <
      (rs.get ⟨i + 1, h2⟩).2 := by
  have hadj := runAllocs_adj rs r as rf hrun i h1 h2
  obtain ⟨j, hj, hA⟩ := halign _ (List.get_mem rs (i + 1) h2)
  set prev := as.get ⟨i, Nat.lt_of_succ_lt h1⟩ + (rs.get ⟨i, Nat.lt_of_succ_lt h2⟩).1
    with hprev
  refine ⟨?_, ?_, ?_, ?_⟩
  · have : prev ≤ as.get ⟨i + 1, h1⟩ := by rw [hadj]; omega
    omega
  · rw [hadj]; omega
  · rw [hadj, hA]
    exact alignPad_aligned prev j hj
  · rw [hadj, hA]
    have := alignPad_lt prev j hj
    omega

/-- Witness for C1: concrete scenario A (capacity 23, fixed store), checked
at the pair `address_1 = 4`, `address_2 = 8`. -/
theorem c1_sequence_alignment_padding_witness :
    runAllocs (freshArena (nullParent 23) 23) [(1, 1), (4, 4), (8, 8), (1, 1)] =
      some ([0, 4, 8, 16], scenAfinal) ∧
    (4 : Nat) ≤ 8 ∧ 4 + 4 ≤ 8 ∧ (8 : Nat) % 8 = 0 ∧ 8 - (4 + 4) < 8 := by
  have hrun : runAllocs (freshArena (nullParent 23) 23)
      [(1, 1), (4, 4), (8, 8), (1, 1)] = some ([0, 4, 8, 16], scenAfinal) := by
    rfl
  have h := c1_sequence_alignment_padding (freshArena (nullParent 23) 23)
    [(1, 1), (4, 4), (8, 8), (1, 1)] [0, 4, 8, 16] scenAfinal hrun
    (by
      intro p hp
      simp only [List.mem_cons, List.not_mem_nil, or_false] at hp
      rcases hp with h | h | h | h <;> subst h
      · exact ⟨0, by omega, rfl⟩
      · exact ⟨2, by omega, rfl⟩
      · exact ⟨3, by omega, rfl⟩
      · exact ⟨0, by omega, rfl⟩)
    1 (by norm_num) (by norm_num)
  exact ⟨hrun, h⟩

/-- An arena over a growable parent (base 0, 8 bytes reserved) whose
`reallocate` relocates the block to base 1; the cursor sits at the end of
the reservation, so the next allocation overflows. -/
def relocArena : LinearMemoryResource :=
  { parent := relocParent 8, m_begin := 0, m_next := 8, m_end := 8 }

/-- C2 (amended): every failed `allocate` leaves `m_next` (the cursor),
`m_end` and `m_begin` unchanged; the backing store's reserved size is also
unchanged, except when a growth reallocation succeeded at a different base
address, in which case the store has already been resized to the grow
target when the call throws. -/
theorem c2_failed_allocate_preserves_state (r : LinearMemoryResource)
    (b a : Nat) (e : CppError) (h : (r.allocate b a).1 = .error e) :
    (r.allocate b a).2.m_next = r.m_next ∧
    (r.allocate b a).2.m_end = r.m_end ∧
    (r.allocate b a).2.m_begin = r.m_begin ∧
    ((r.allocate b a).2.parent.reserved = r.parent.reserved ∨
      ∃ addr, r.parent.reallocAddr (growTarget r) = some addr ∧ addr ≠ r.m_begin ∧
        (r.allocate b a).2.parent.reserved = growTarget r) := by
  rcases heq : r.allocate b a with ⟨out, r1⟩
  rw [heq] at h
  dsimp only at h ⊢
  simp only [LinearMemoryResource.allocate] at heq
  split at heq
  · split at heq
    · split at heq
      case h_1 =>
        injection heq with hfst hsnd
        subst hsnd
        exact ⟨rfl, rfl, rfl, Or.inl rfl⟩
      case h_2 addr hre =>
        split at heq
        case isTrue hne =>
          injection heq with hfst hsnd
          subst hsnd
          exact ⟨rfl, rfl, rfl, Or.inr ⟨addr, hre, hne, rfl⟩⟩
        case isFalse =>
          injection heq with hfst hsnd
          rw [← hfst] at h
          exact absurd h (by simp)
    · injection heq with hfst hsnd
      subst hsnd
      exact ⟨rfl, rfl, rfl, Or.inl rfl⟩
  · injection heq with hfst hsnd
    rw [← hfst] at h
    exact absurd h (by simp)

/-- Witness for C2: an out-of-memory failure on the fixed-capacity arena of
scenario A leaves the cursor and bounds untouched. -/
theorem c2_failed_allocate_preserves_state_witness :
    ((freshArena (nullParent 23) 23).allocate 24 1).1 =
      Except.error CppError.badAlloc ∧
    ((freshArena (nullParent 23) 23).allocate 24 1).2.m_next = 0 ∧
    ((freshArena (nullParent 23) 23).allocate 24 1).2.m_end = 23 := by
  have h := c2_failed_allocate_preserves_state (freshArena (nullParent 23) 23)
    24 1 .badAlloc rfl
  exact ⟨rfl, h.1, h.2.1⟩

/-- Counterexample to C2 as stated: when growth succeeds at a different base
address, the failed `allocate` leaves the backing store's reserved size
changed (8 before the call, 16 after), contradicting "the backing store's
reserved size [is] exactly the same after the failed call". -/
theorem c2_counterexample_store_resized_on_failure :
    (relocArena.allocate 4 4).1 = Except.error CppError.badAlloc ∧
    relocArena.parent.reserved = 8 ∧
    (relocArena.allocate 4 4).2.parent.reserved = 16 :=
  ⟨rfl, rfl, rfl⟩

/-- The growable scenario-B arena after `allocate(4,4)`, `allocate(4,4)`:
reserved 8 bytes, cursor 8, reservation full. -/
def scenBmid : LinearMemoryResource :=
  { parent := { reserved := 8, growable := true, hasMax := false, maxSize := 0,
                reallocAddr := inPlaceOracle },
    m_begin := 0, m_next := 8, m_end := 8 }

/-- C3: at the reachable state `scenBmid` (growable store, 8 bytes reserved,
8 in use — scenario B of the spec and test `Allocate.Realloc`),
`allocate(4000, 4)` needs `8 + 4000 = 4008` total bytes, but the size the
arena requests from the store (`growTarget`) is 16 — `max(size(),
2*capacity())` evaluated with the not-yet-advanced cursor — not
`max(4008, 16) = 4008` as the claim, the code comment and the test
`Allocate.Realloc` (which expects the parent to hold 4008 bytes) require. -/
theorem c3_grow_request_ignores_pending_bytes :
    runAllocs (freshArena (growParent 4) 4) [(4, 4), (4, 4)] =
      some ([0, 4], scenBmid) ∧
    scenBmid.m_next + alignPad scenBmid.m_next 4 + 4000 = 4008 ∧
    growTarget scenBmid = 16 ∧
    (scenBmid.allocate 4000 4).1 = Except.ok 8 ∧
    (scenBmid.allocate 4000 4).2.parent.reserved = 16 :=
  ⟨rfl, rfl, rfl, rfl, rfl⟩

/-- The scenario-B arena after the further `allocate(4000, 4)`: the cursor
(4008) is beyond the end of the reservation (16). -/
def scenBbad : LinearMemoryResource :=
  { parent := { reserved := 16, growable := true, hasMax := false, maxSize := 0,
                reallocAddr := inPlaceOracle },
    m_begin := 0, m_next := 4008, m_end := 16 }

/-- C4 (amended): an overflowing `allocate` on a growable store whose
reallocation returns a base address different from the arena's current base
fails — but by throwing `std::bad_alloc`, the one exception type also used
for out-of-memory, so the failure is not a distinct error kind
distinguishable by the caller; the arena's cursor and `m_end` (hence
`size()` and `capacity()`) are unchanged. -/
theorem c4_address_changed_growth_fails (r : LinearMemoryResource)
    (b a addr : Nat)
    (hover : r.m_end < r.m_next + alignPad r.m_next a + b)
    (hgrow : r.parent.growable = true)
    (hre : r.parent.reallocAddr (growTarget r) = some addr)
    (hne : addr ≠ r.m_begin) :
    (r.allocate b a).1 = Except.error CppError.badAlloc ∧
    (r.allocate b a).2.m_next = r.m_next ∧
    (r.allocate b a).2.m_end = r.m_end := by
  have key : r.allocate b a =
      (.error .badAlloc, { r with parent := { r.parent with reserved := growTarget r } }) := by
    simp only [LinearMemoryResource.allocate]
    rw [if_pos (show r.m_next + alignPad r.m_next a + b > r.m_end from hover), hgrow,
      if_pos (rfl : (true : Bool) = true), hre]
    dsimp only
    rw [if_pos hne]
  rw [key]
  exact ⟨rfl, rfl, rfl⟩

/-- Counterexample to C4 as stated: the address-changed failure and a plain
out-of-memory failure (fixed store, request larger than capacity) surface
as the *same* observable error, `std::bad_alloc`; there is no distinct
`AddressChanged` error kind the caller could distinguish. -/
theorem c4_counterexample_same_error_as_oom :
    (relocArena.allocate 4 4).1 = Except.error CppError.badAlloc ∧
    ((freshArena (nullParent 23) 23).allocate 24 1).1 =
      Except.error CppError.badAlloc ∧
    (relocArena.allocate 4 4).1 =
      ((freshArena (nullParent 23) 23).allocate 24 1).1 :=
  ⟨rfl, rfl, rfl⟩

/-- Witness for C4's amended statement: the concrete relocating arena. -/
theorem c4_address_changed_growth_fails_witness :
    (relocArena.allocate 4 4).1 = Except.error CppError.badAlloc ∧
    (relocArena.allocate 4 4).2.m_next = relocArena.m_next ∧
    (relocArena.allocate 4 4).2.m_end = relocArena.m_end := by
  exact c4_address_changed_growth_fails relocArena 4 4 1 (by decide) rfl rfl
    (by decide)

/-- C6: the invariant `beginAddress ≤ cursor ≤ endAddress` is violated in a
state reachable by three successful `allocate` calls from a freshly
constructed growable arena (scenario B): after `allocate(4000, 4)` the
cursor `m_next = 4008` exceeds `m_end = 16`, because the grow target
ignored the pending request yet the cursor was still committed. -/
theorem c6_invariant_broken_in_reachable_state :
    runAllocs (freshArena (growParent 4) 4) [(4, 4), (4, 4), (4000, 4)] =
      some ([0, 4, 8], scenBbad) ∧
    scenBbad.m_end < scenBbad.m_next :=
  ⟨rfl, by decide⟩

/-- The scenario-A arena after `allocate(1, 1)`: cursor at 1. -/
def c5arena : LinearMemoryResource :=
  { parent := nullParent 23, m_begin := 0, m_next := 1, m_end := 23 }

/-- C5 (amended): `allocate(0, align)` computes alignment padding like any
other allocation: when the aligned cursor fits, it succeeds, returns the
*aligned* cursor `m_next + alignPad m_next align`, and advances the cursor
to it (consuming the padding bytes); only for `align = 1` (where the
padding is zero) does it return the current cursor and leave `size()`
unchanged. -/
theorem c5_zero_size_applies_alignment (r : LinearMemoryResource) (align : Nat)
    (hfit : r.m_next + alignPad r.m_next align ≤ r.m_end)
    (hfit1 : r.m_next ≤ r.m_end) :
    r.allocate 0 align =
      (Except.ok (r.m_next + alignPad r.m_next align),
        { r with m_next := r.m_next + alignPad r.m_next align }) ∧
    r.allocate 0 1 = (Except.ok r.m_next, r) := by
  constructor
  · simp only [LinearMemoryResource.allocate, Nat.add_zero]
    rw [if_neg (by omega)]
  · simp only [LinearMemoryResource.allocate, alignPad_one, Nat.add_zero]
    rw [if_neg (by omega)]

/-- Witness for C5's amended statement: the arena of scenario A after one
1-byte allocation (cursor 1): `allocate(0, 4)` returns 4 and moves the
cursor to 4; `allocate(0, 1)` returns 1 and is a no-op. -/
theorem c5_zero_size_applies_alignment_witness :
    c5arena.allocate 0 4 =
      (Except.ok 4, { c5arena with m_next := 4 }) ∧
    c5arena.allocate 0 1 = (Except.ok 1, c5arena) := by
  have h := c5_zero_size_applies_alignment c5arena 4 (by decide) (by decide)
  exact h

/-- Counterexample to C5 as stated: at the reachable state `c5arena`
(cursor 1), `allocate(0, 4)` does *not* return the current cursor 1 and
does *not* leave `size()` unchanged: it returns the aligned address 4 and
advances `size()` from 1 to 4. -/
theorem c5_counterexample_zero_size_pads :
    ((freshArena (nullParent 23) 23).allocate 1 1).2 = c5arena ∧
    c5arena.m_next = 1 ∧ c5arena.size = 1 ∧
    (c5arena.allocate 0 4).1 = Except.ok 4 ∧
    (c5arena.allocate 0 4).2.size = 4 :=
  ⟨rfl, rfl, rfl, rfl, rfl⟩

/-! ### Replay determinism (C7) -/

lemma runAllocs_preserves_begin (rs : List (Nat × Nat)) :
    ∀ (r : LinearMemoryResource) (as : List Nat) (rf : LinearMemoryResource),
      runAllocs r rs = some (as, rf) → rf.m_begin = r.m_begin := by
  induction rs with
  | nil =>
    intro r as rf h
    simp only [runAllocs] at h
    injection h with h1
    injection h1 with _ h2
    rw [← h2]
  | cons hd rest IH =>
    intro r as rf h
    obtain ⟨b, a⟩ := hd
    obtain ⟨r1, as1, _, hrun, _, _, hb⟩ := runAllocs_head r b a rest as rf h
    rw [IH r1 as1 rf hrun, hb]

lemma runAllocs_addrs_determined (rs : List (Nat × Nat)) :
    ∀ (r s : LinearMemoryResource) (as bs : List Nat)
      (rf sf : LinearMemoryResource), r.m_next = s.m_next →
      runAllocs r rs = some (as, rf) → runAllocs s rs = some (bs, sf) →
      as = bs := by
  induction rs with
  | nil =>
    intro r s as bs rf sf _ h1 h2
    simp only [runAllocs] at h1 h2
    injection h1 with h1'
    injection h2 with h2'
    injection h1' with ha _
    injection h2' with hb _
    rw [← ha, ← hb]
  | cons hd rest IH =>
    intro r s as bs rf sf hnext h1 h2
    obtain ⟨b, a⟩ := hd
    obtain ⟨r1, as1, _, hrun1, has1, hn1, _⟩ := runAllocs_head r b a rest as rf h1
    obtain ⟨s1, bs1, _, hrun2, hbs1, hn2, _⟩ := runAllocs_head s b a rest bs sf h2
    subst has1
    subst hbs1
    rw [hnext]
    have htail : as1 = bs1 := IH r1 s1 as1 bs1 rf sf (by rw [hn1, hn2, hnext]) hrun1 hrun2
    rw [htail]

/-- C7: `reset()` sets `size()` to 0 and leaves `capacity()` unchanged, and
replaying the identical allocation sequence after `reset()` (when the
replay, like the first run from the freshly constructed arena, completes
without throwing) returns exactly the addresses of the first run. -/
theorem c7_reset_then_replay_identical (r0 : LinearMemoryResource)
    (rs : List (Nat × Nat)) (as1 : List Nat) (r1 : LinearMemoryResource)
    (as2 : List Nat) (r2 : LinearMemoryResource)
    (hfresh : r0.m_next = r0.m_begin)
    (h1 : runAllocs r0 rs = some (as1, r1))
    (h2 : runAllocs r1.reset rs = some (as2, r2)) :
    r1.reset.size = 0 ∧ r1.reset.capacity = r1.capacity ∧ as2 = as1 := by
  refine ⟨?_, rfl, ?_⟩
  · simp [LinearMemoryResource.reset, LinearMemoryResource.size]
  · have hb : r1.m_begin = r0.m_begin := runAllocs_preserves_begin rs r0 as1 r1 h1
    have hnx : r1.reset.m_next = r0.m_next := by
      simp [LinearMemoryResource.reset, hb, hfresh]
    exact runAllocs_addrs_determined rs r1.reset r0 as2 as1 r2 r1 hnx h2 h1

/-- The scenario-A arena after `allocate(1,1)` and `allocate(4,4)`. -/
def c7mid : LinearMemoryResource :=
  { parent := nullParent 23, m_begin := 0, m_next := 8, m_end := 23 }

/-- Witness for C7: running `(1,1), (4,4)` on the fresh capacity-23 arena
gives addresses `[0, 4]`; after `reset()` the replay gives `[0, 4]` again,
with `size()` 0 and `capacity()` still 23 after the reset. -/
theorem c7_reset_then_replay_identical_witness :
    c7mid.reset.size = 0 ∧ c7mid.reset.capacity = c7mid.capacity ∧
    ([0, 4] : List Nat) = [0, 4] := by
  exact c7_reset_then_replay_identical (freshArena (nullParent 23) 23)
    [(1, 1), (4, 4)] [0, 4] c7mid [0, 4] c7mid rfl rfl rfl

/-- The arena state after a successful in-place `truncate()`: the parent's
reservation and `m_end` both shrink to the current usage. -/
def truncatedState (r : LinearMemoryResource) : LinearMemoryResource :=
  { parent := { r.parent with reserved := r.size }, m_begin := r.m_begin,
    m_next := r.m_next, m_end := r.m_next }

/-- C8: on a growable (realloc-capable) store whose in-place reallocation
succeeds, `truncate()` shrinks the backing store's reserved size to exactly
the current usage `size()` and afterwards `capacity() == size()`; on a
fixed store `truncate` is unavailable (the C++ `requires` clause — modelled
as `none`). -/
theorem c8_truncate_shrinks_to_usage (r : LinearMemoryResource) :
    (∀ _hg : r.parent.growable = true,
      ∀ _hr : r.parent.reallocAddr r.size = some r.m_begin,
      ∃ r1, r.truncate = some (Except.ok (), r1) ∧
        r1.parent.reserved = r.size ∧ r1.size = r.size ∧
        r1.capacity = r1.size) ∧
    (r.parent.growable = false → r.truncate = none) := by
  constructor
  · intro hg hr
    refine ⟨truncatedState r, ?_, rfl, rfl, rfl⟩
    simp only [LinearMemoryResource.truncate]
    rw [if_pos hg, hr]
    dsimp only
    rw [if_neg (by simp)]
    rfl
  · intro hng
    simp [LinearMemoryResource.truncate, hng]

/-- Witness for C8: truncating the growable scenario-B arena (8 of 8 bytes
in use) shrinks the store to 8 bytes; the fixed scenario-A arena has no
`truncate`. -/
theorem c8_truncate_shrinks_to_usage_witness :
    (∃ r1, scenBmid.truncate = some (Except.ok (), r1) ∧
      r1.parent.reserved = scenBmid.size ∧ r1.size = scenBmid.size ∧
      r1.capacity = r1.size) ∧
    (freshArena (nullParent 23) 23).truncate = none := by
  exact ⟨(c8_truncate_shrinks_to_usage scenBmid).1 rfl rfl,
    (c8_truncate_shrinks_to_usage (freshArena (nullParent 23) 23)).2 rfl⟩

/-- C9: two `memory_resource_ref` views compare equal (`operator==`) exactly
when they reference the same arena instance (the same stored resource
pointer), independently of the element types they are parameterized for;
copying a view copies the reference, and converting/rebinding to a
different element type preserves the referenced arena. -/
theorem c9_view_equality_is_reference_identity (T U : Type)
    (x y : MemoryResourceRef T) (b : MemoryResourceRef U) :
    (x.beq y = true ↔ x.m_resource = y.m_resource) ∧
    x.copy = x ∧
    (MemoryResourceRef.ofOther (T := T) (U := U) b).m_resource = b.m_resource ∧
    (x.beq (MemoryResourceRef.ofOther b) = true ↔ x.m_resource = b.m_resource) ∧
    (x.bne y = true ↔ ¬x.m_resource = y.m_resource) := by
  refine ⟨?_, rfl, rfl, ?_, ?_⟩
  · simp [MemoryResourceRef.beq]
  · simp [MemoryResourceRef.beq, MemoryResourceRef.ofOther]
  · simp [MemoryResourceRef.bne]

lemma stepPmr_eq (r : LinearMemoryResource) (op : ArenaOp) :
    stepPmr ⟨r⟩ op = ((stepLinear r op).1, ⟨(stepLinear r op).2⟩) := by
  cases op with
  | truncate =>
    cases h : r.truncate with
    | none =>
      simp [stepPmr, stepLinear, PmrLinearMemoryResource.truncate, h]
    | some q =>
      cases q with
      | mk o r1 =>
        simp [stepPmr, stepLinear, PmrLinearMemoryResource.truncate, h]
  | _ => rfl

/-- C10: the pmr adapter `pmr_linear_memory_resource` is observationally
equivalent to the wrapped `linear_memory_resource` over every sequence of
allocate/deallocate/reset/truncate/size/capacity/data operations: each
operation produces the same observable outcome (address, exception, or
queried number) and the same state change (the adapter's state is exactly
the wrapped resource's state). -/
theorem c10_pmr_adapter_observationally_equivalent
    (r : LinearMemoryResource) (ops : List ArenaOp) :
    runPmr ⟨r⟩ ops = ((runLinear r ops).1, ⟨(runLinear r ops).2⟩) := by
  induction ops generalizing r with
  | nil => rfl
  | cons op rest IH =>
    simp only [runPmr, runLinear, stepPmr_eq, IH]
